import Mathlib

/-!
Verification of the peaq DID attribute-registry pallet
(src/pallets/did/src/lib.rs).

The pallet stores named key/value attributes per account.  Its core is four
lifecycle operations (create_attribute, mutate_attribute, get_attribute,
delete_attribute) over two storage maps (AttributeStore, AttributeNonce),
plus four dispatchables (add_attribute, update_attribute, read_attribute,
remove_attribute) that wrap the core behind caller authentication and a
name-length bound.

Modelling choices, all spelled out at the definition they concern:
* `AccountId` is modelled as `Nat`; byte strings (`Vec<u8>`, `[u8]`) as
  `List Nat` with each element a byte value.
* `T::BlockNumber` is modelled as `Nat`; the concrete runtime instantiates
  it with `u32`, whose maximum value the source writes as
  `u32::max_value().into()`.  Block-height addition is modelled as `Nat`
  addition: with overflow checks the runtime aborts (writing nothing) on
  overflow, so every completing execution computes the exact sum.
* The two `StorageMap`s become association lists inside an explicit
  `DidState` record threaded through all operations; `ValueQuery` (default
  value on a missing key) becomes `Option.getD` with the type's default.
* Host collaborators (`ensure_signed`, `T::Time::now()`, the block number,
  the event sink) are injected: the authenticated sender, the current
  moment and the current block number are arguments, and `deposit_event`
  calls — fire-and-forget notifications to an external sink — are not part
  of the modelled state.
* Fallible operations return `Except … Unit × DidState` so that the state
  an erroring path leaves behind is explicit in the model, exactly
  mirroring which writes precede each `return Err(..)` in the source.
-/

namespace PeaqDid

/-- Modelled from the spec: the `Attribute` record is declared in the
crate's `structs` module, whose file is not in the sources provided; its
five fields are reconstructed from their uses in `lib.rs`
(`create_attribute`, `mutate_attribute`) and from spec section 3.
`name`/`value` are byte sequences, `validity` a ledger height, `created` a
host-supplied moment, `nonce` an integer version marker. -/
structure Attribute where
  name : List Nat
  value : List Nat
  validity : Nat
  created : Nat
  nonce : Nat
  deriving Repr, DecidableEq

/-- The `Default` instance backing the store's `ValueQuery`: every field is
its type's default, as `#[derive(Default)]` on such a struct yields. -/
def defaultAttribute : Attribute :=
  { name := [], value := [], validity := 0, created := 0, nonce := 0 }

/-- Modelled from the spec: `DidError` is declared in the crate's `did`
module, whose file is not in the sources provided; its five variants are
exactly those matched by `dispatch_error` in `lib.rs` lines 62-72 and
listed in spec section 7. -/
inductive DidError where
  | NotFound
  | NameExceedMaxChar
  | AlreadyExist
  | FailedCreate
  | FailedUpdate
  deriving Repr, DecidableEq

/-- The pallet-level `Error<T>` enum, lib.rs lines 47-59. -/
inductive PalletError where
  | AttributeNameExceedMax64
  | AttributeCreationFailed
  | AttributeUpdateFailed
  | AttributeNotFound
  | AttributeAlreadyExist
  deriving Repr, DecidableEq

/-- `Error::<T>::dispatch_error`, lib.rs lines 62-72.  Note the source maps
`FailedUpdate` to `AttributeCreationFailed` (line 70), and the model keeps
that faithfully. -/
def dispatch_error : DidError → PalletError
  | DidError.NotFound => PalletError.AttributeNotFound
  | DidError.NameExceedMaxChar => PalletError.AttributeNameExceedMax64
  | DidError.AlreadyExist => PalletError.AttributeAlreadyExist
  | DidError.FailedCreate => PalletError.AttributeCreationFailed
  | DidError.FailedUpdate => PalletError.AttributeCreationFailed

/-- Association-list lookup: the first binding of the key, if any.  Models
`StorageMap` reads. -/
def lookupA {κ β : Type} [DecidableEq κ] : List (κ × β) → κ → Option β
  | [], _ => none
  | (a, b) :: rest, k => if a = k then some b else lookupA rest k

/-- Remove every binding of a key.  Models `StorageMap::remove`. -/
def removeA {κ β : Type} [DecidableEq κ] (k : κ) (l : List (κ × β)) :
    List (κ × β) :=
  l.filter (fun p => decide (p.1 ≠ k))

/-- Insert a binding, replacing any previous binding of the key.  Models
`StorageMap::insert` (an unconditional upsert). -/
def insertA {κ β : Type} [DecidableEq κ] (k : κ) (b : β) (l : List (κ × β)) :
    List (κ × β) :=
  (k, b) :: removeA k l

/-- Key membership.  Models `StorageMap::contains_key`. -/
def containsA {κ β : Type} [DecidableEq κ] (l : List (κ × β)) (k : κ) : Bool :=
  (lookupA l k).isSome

/-- The number of bindings a key has in the list (the store invariant keeps
it at most 1). -/
def countA {κ β : Type} [DecidableEq κ] (l : List (κ × β)) (k : κ) : Nat :=
  (l.filter (fun p => decide (p.1 = k))).length

/-- The pallet's storage, lib.rs lines 79-92: `AttributeStore` maps
`(T::AccountId, [u8; 32])` to an `Attribute` and `AttributeNonce` maps
`(T::AccountId, Vec<u8>)` to a `u64` nonce; both are `ValueQuery` maps,
modelled as association lists read through a default. -/
structure DidState where
  attributeStore : List ((Nat × List Nat) × Attribute)
  attributeNonce : List ((Nat × List Nat) × Nat)
  deriving Repr, DecidableEq

/-- A little-endian 8-byte rendering of an integer, used by the modelled
SCALE encoding below. -/
def encodeU64le (n : Nat) : List Nat :=
  (List.range 8).map (fun i => n / 256 ^ i % 256)

/-- Modelled from the spec: the SCALE encoding
`(&owner, name, nonce).using_encoded(..)` is supplied by the host codec
library, not by this repository.  Spec section 4.1 requires only a
structured, deterministic encoding of the owner identifier, the name bytes
and the nonce integer; the model concatenates a fixed-width owner field, a
length-prefixed name field and a fixed-width nonce field. -/
def scaleEncodeTriple (owner : Nat) (name : List Nat) (nonce : Nat) :
    List Nat :=
  encodeU64le owner ++ encodeU64le name.length ++ name ++ encodeU64le nonce

/-- Modelled from the spec: `blake2_256` is the host hash function
(`sp_io::hashing`), outside this repository.  Spec section 4.1 requires a
pure deterministic function from bytes to a fixed-width 256-bit (32-byte)
value with no salts or randomness; the model is a deterministic byte-mixing
digest with a 32-byte output.  (Collision resistance is a cryptographic
assumption no claim here relies on.) -/
def blake2_256 (input : List Nat) : List Nat :=
  let h := input.foldl (fun acc b => (acc * 1099511628211 + b + 1) % 2 ^ 64)
    14695981039346656037
  (List.range 32).map (fun i => (h * (i + 1) * 2654435761 + i) % 256)

/-- The key derivation `(&owner, name, nonce).using_encoded(blake2_256)`
appearing verbatim in all four lifecycle operations (lib.rs lines 217, 250,
268, 280). -/
def derive_id (owner : Nat) (name : List Nat) (nonce : Nat) : List Nat :=
  blake2_256 (scaleEncodeTriple owner name nonce)

/-- `Pallet::nonce_of`, the `AttributeNonce` getter (lib.rs lines 89-92):
`ValueQuery` yields the stored counter, or `u64`'s default 0 when the key
was never set. -/
def nonce_of (s : DidState) (owner : Nat) (name : List Nat) : Nat :=
  (lookupA s.attributeNonce (owner, name)).getD 0

/-- `Pallet::attribute_of`, the `AttributeStore` getter (lib.rs lines
79-87): `ValueQuery` yields the stored record, or the default `Attribute`
when the key is absent. -/
def attribute_of (s : DidState) (k : Nat × List Nat) : Attribute :=
  (lookupA s.attributeStore k).getD defaultAttribute

/-- `u32::max_value()`: the validity stored for `valid_for = None`
(lib.rs lines 212 and 241 write `u32::max_value().into()`); with the
runtime's `u32` block-number type this is the maximum representable
height. -/
def u32MaxValue : Nat := 4294967295

/-- The validity computation shared verbatim by `create_attribute`
(lib.rs lines 210-213) and `mutate_attribute` (lines 239-242):
`now_block_number + blocks` when a duration is given, else
`u32::max_value().into()`. -/
def computeValidity (valid_for : Option Nat) (now_block_number : Nat) :
    Nat :=
  match valid_for with
  | some blocks => now_block_number + blocks
  | none => u32MaxValue

/-- `Did::create_attribute`, lib.rs lines 202-229.  Reads the nonce,
derives the key, builds the record and unconditionally inserts it; no
existence check, never an error.  `now_timestamp` and `now_block_number`
are the host-supplied `T::Time::now()` and current block height. -/
def create_attribute (s : DidState) (owner : Nat) (name value : List Nat)
    (valid_for : Option Nat) (now_timestamp now_block_number : Nat) :
    Except DidError Unit × DidState :=
  let validity := computeValidity valid_for now_block_number
  let nonce := nonce_of s owner name
  let id := derive_id owner name nonce
  let new_attribute : Attribute :=
    { name := name, value := value, validity := validity,
      created := now_timestamp, nonce := nonce }
  (Except.ok (),
    { s with attributeStore := insertA (owner, id) new_attribute s.attributeStore })

/-- `Did::get_attribute`, lib.rs lines 262-274.  Recomputes nonce and key;
returns the stored record when `contains_key` holds, else `None` (so the
`ValueQuery` default is never surfaced). -/
def get_attribute (s : DidState) (owner : Nat) (name : List Nat) :
    Option Attribute :=
  let nonce := nonce_of s owner name
  let id := derive_id owner name nonce
  if containsA s.attributeStore (owner, id) then
    some (attribute_of s (owner, id))
  else
    none

/-- `Did::mutate_attribute`, lib.rs lines 232-259.  Recomputes the
validity, looks the record up via `get_attribute`, and on success replaces
its `value` and `validity` fields and writes it back at the recomputed key
(`StorageMap::mutate` with `*a = attr` on a `ValueQuery` map is an
unconditional overwrite, i.e. an insert); when absent, fails with
`NotFound` having written nothing. -/
def mutate_attribute (s : DidState) (owner : Nat) (name value : List Nat)
    (valid_for : Option Nat) (now_block_number : Nat) :
    Except DidError Unit × DidState :=
  let validity := computeValidity valid_for now_block_number
  match get_attribute s owner name with
  | some attr =>
      let nonce := nonce_of s owner name
      let id := derive_id owner name nonce
      let attr2 := { attr with value := value, validity := validity }
      (Except.ok (),
        { s with attributeStore := insertA (owner, id) attr2 s.attributeStore })
  | none => (Except.error DidError.NotFound, s)

/-- `Did::delete_attribute`, lib.rs lines 277-287.  Recomputes nonce and
key; `NotFound` when the key is absent (nothing written), else removes the
record. -/
def delete_attribute (s : DidState) (owner : Nat) (name : List Nat) :
    Except DidError Unit × DidState :=
  let nonce := nonce_of s owner name
  let id := derive_id owner name nonce
  if ¬ containsA s.attributeStore (owner, id) then
    (Except.error DidError.NotFound, s)
  else
    (Except.ok (),
      { s with attributeStore := removeA (owner, id) s.attributeStore })

/-- Dispatchable `add_attribute`, lib.rs lines 105-127.  `sender` is the
already-authenticated signer (`ensure_signed`); the name length is checked
against 64 before the core runs; core errors pass through
`dispatch_error`. -/
def add_attribute (s : DidState) (sender : Nat) (name value : List Nat)
    (valid_for : Option Nat) (now_timestamp now_block_number : Nat) :
    Except PalletError Unit × DidState :=
  if name.length ≤ 64 then
    match create_attribute s sender name value valid_for now_timestamp
        now_block_number with
    | (Except.ok _, s2) => (Except.ok (), s2)
    | (Except.error e, s2) => (Except.error (dispatch_error e), s2)
  else
    (Except.error PalletError.AttributeNameExceedMax64, s)

/-- Dispatchable `update_attribute`, lib.rs lines 132-153.  Same boundary
checks as `add_attribute`, delegating to `mutate_attribute`. -/
def update_attribute (s : DidState) (sender : Nat) (name value : List Nat)
    (valid_for : Option Nat) (now_block_number : Nat) :
    Except PalletError Unit × DidState :=
  if name.length ≤ 64 then
    match mutate_attribute s sender name value valid_for now_block_number with
    | (Except.ok _, s2) => (Except.ok (), s2)
    | (Except.error e, s2) => (Except.error (dispatch_error e), s2)
  else
    (Except.error PalletError.AttributeNameExceedMax64, s)

/-- Dispatchable `read_attribute`, lib.rs lines 157-171.  Faithfully to the
source, there is NO name-length check here: the lookup runs for any name,
and an absent record yields `AttributeNotFound`.  Reading never changes
state (the emitted `AttributeRead` event goes to the external sink). -/
def read_attribute (s : DidState) (sender : Nat) (name : List Nat) :
    Except PalletError Unit × DidState :=
  match get_attribute s sender name with
  | some _ => (Except.ok (), s)
  | none => (Except.error PalletError.AttributeNotFound, s)

/-- Dispatchable `remove_attribute`, lib.rs lines 175-193.  Name length
checked against 64, then `delete_attribute`. -/
def remove_attribute (s : DidState) (sender : Nat) (name : List Nat) :
    Except PalletError Unit × DidState :=
  if name.length ≤ 64 then
    match delete_attribute s sender name with
    | (Except.ok _, s2) => (Except.ok (), s2)
    | (Except.error e, s2) => (Except.error (dispatch_error e), s2)
  else
    (Except.error PalletError.AttributeNameExceedMax64, s)

/-! Helper lemmas about the association-list storage model. -/

theorem lookupA_removeA_self {κ β : Type} [DecidableEq κ] (k : κ)
    (l : List (κ × β)) : lookupA (removeA k l) k = none := by
  induction l with
  | nil => rfl
  | cons p rest ih =>
      by_cases h : p.1 = k
      · simpa [removeA, List.filter_cons, h] using ih
      · simpa [removeA, List.filter_cons, h, lookupA] using ih

theorem lookupA_removeA_ne {κ β : Type} [DecidableEq κ] {k k' : κ}
    (l : List (κ × β)) (h : k' ≠ k) :
    lookupA (removeA k l) k' = lookupA l k' := by
  have h2 : k ≠ k' := fun hc => h hc.symm
  induction l with
  | nil => rfl
  | cons p rest ih =>
      by_cases hp : p.1 = k
      · simp [removeA, List.filter_cons, hp, lookupA, h2] at *
        exact ih
      · by_cases hq : p.1 = k'
        · simp [removeA, List.filter_cons, hp, lookupA, hq, h]
        · simp [removeA, List.filter_cons, hp, lookupA, hq] at *
          exact ih

theorem lookupA_insertA_self {κ β : Type} [DecidableEq κ] (k : κ) (b : β)
    (l : List (κ × β)) : lookupA (insertA k b l) k = some b := by
  simp [insertA, lookupA]

theorem lookupA_insertA_ne {κ β : Type} [DecidableEq κ] {k k' : κ} (b : β)
    (l : List (κ × β)) (h : k' ≠ k) :
    lookupA (insertA k b l) k' = lookupA l k' := by
  have : k ≠ k' := fun hc => h hc.symm
  simp [insertA, lookupA, this]
  exact lookupA_removeA_ne l h

theorem removeA_removeA {κ β : Type} [DecidableEq κ] (k : κ)
    (l : List (κ × β)) : removeA k (removeA k l) = removeA k l := by
  simp [removeA, List.filter_filter]

theorem removeA_insertA {κ β : Type} [DecidableEq κ] (k : κ) (b : β)
    (l : List (κ × β)) : removeA k (insertA k b l) = removeA k l := by
  simp [insertA, removeA, List.filter_cons, List.filter_filter]

theorem countA_removeA_self {κ β : Type} [DecidableEq κ] (k : κ)
    (l : List (κ × β)) : countA (removeA k l) k = 0 := by
  induction l with
  | nil => rfl
  | cons p rest ih =>
      by_cases h : p.1 = k
      · simp [removeA, List.filter_cons, h, countA] at *
      · simp [removeA, List.filter_cons, h, countA] at *

theorem countA_insertA_self {κ β : Type} [DecidableEq κ] (k : κ) (b : β)
    (l : List (κ × β)) : countA (insertA k b l) k = 1 := by
  have h0 := countA_removeA_self k l
  simp [insertA, countA, List.filter_cons] at *
  exact h0

/-! Helper lemmas about the lifecycle operations. -/

theorem get_attribute_eq_lookupA (s : DidState) (owner : Nat)
    (name : List Nat) :
    get_attribute s owner name
      = lookupA s.attributeStore
          (owner, derive_id owner name (nonce_of s owner name)) := by
  cases h : lookupA s.attributeStore
      (owner, derive_id owner name (nonce_of s owner name)) with
  | none => simp [get_attribute, containsA, h]
  | some a => simp [get_attribute, containsA, attribute_of, h]

theorem create_attribute_nonce_eq (s : DidState) (owner : Nat)
    (name value : List Nat) (valid_for : Option Nat) (t b : Nat) :
    (create_attribute s owner name value valid_for t b).2.attributeNonce
      = s.attributeNonce := rfl

theorem mutate_attribute_nonce_eq (s : DidState) (owner : Nat)
    (name value : List Nat) (valid_for : Option Nat) (b : Nat) :
    (mutate_attribute s owner name value valid_for b).2.attributeNonce
      = s.attributeNonce := by
  unfold mutate_attribute
  cases get_attribute s owner name <;> rfl

theorem delete_attribute_nonce_eq (s : DidState) (owner : Nat)
    (name : List Nat) :
    (delete_attribute s owner name).2.attributeNonce
      = s.attributeNonce := by
  by_cases h : containsA s.attributeStore
      (owner, derive_id owner name (nonce_of s owner name))
  · simp [delete_attribute, h]
  · simp [delete_attribute, h]

theorem nonce_of_create (s : DidState) (owner : Nat)
    (name value : List Nat) (valid_for : Option Nat) (t b : Nat)
    (o : Nat) (n : List Nat) :
    nonce_of (create_attribute s owner name value valid_for t b).2 o n
      = nonce_of s o n := by
  simp [nonce_of, create_attribute_nonce_eq]

theorem nonce_of_delete (s : DidState) (owner : Nat) (name : List Nat)
    (o : Nat) (n : List Nat) :
    nonce_of (delete_attribute s owner name).2 o n = nonce_of s o n := by
  simp [nonce_of, delete_attribute_nonce_eq]

theorem create_attribute_store_eq (s : DidState) (owner : Nat)
    (name value : List Nat) (valid_for : Option Nat) (t b : Nat) :
    (create_attribute s owner name value valid_for t b).2.attributeStore
      = insertA (owner, derive_id owner name (nonce_of s owner name))
          { name := name, value := value,
            validity := computeValidity valid_for b,
            created := t, nonce := nonce_of s owner name }
          s.attributeStore := rfl

theorem containsA_false_iff_lookupA_none {κ β : Type} [DecidableEq κ]
    (l : List (κ × β)) (k : κ) :
    containsA l k = false ↔ lookupA l k = none := by
  cases h : lookupA l k <;> simp [containsA, h]

/-! Claim theorems. -/

/-- The byte string "email" used by the spec's create-then-read and
create-then-delete scenarios. -/
def emailName : List Nat := [101, 109, 97, 105, 108]

/-- C10: `get_attribute(owner, name)` returns `Some record` exactly when
`AttributeStore` holds a record at the key derived for `(owner, name)`
(and that record), and `None` otherwise; the `contains_key` guard
guarantees the `ValueQuery` default record is never surfaced to a
caller. -/
theorem get_attribute_matches_store (s : DidState) (owner : Nat)
    (name : List Nat) :
    get_attribute s owner name
      = lookupA s.attributeStore
          (owner, derive_id owner name (nonce_of s owner name))
  ∧ (get_attribute s owner name = none
      ↔ containsA s.attributeStore
          (owner, derive_id owner name (nonce_of s owner name)) = false) := by
  refine ⟨get_attribute_eq_lookupA s owner name, ?_⟩
  rw [get_attribute_eq_lookupA s owner name,
    containsA_false_iff_lookupA_none]

/-- C1: no lifecycle operation modifies the `AttributeNonce` map; the nonce
each operation reads for `(owner, name)` is the stored counter, defaulting
to 0 when never set; the derived storage key
`blake2_256(encode(owner, name, nonce))` is 32 bytes; and each of the four
operations touches the `AttributeStore` only at that one identical key
(the store outside the key is left exactly as it was, and `get_attribute`
reads exactly that key). -/
theorem lifecycle_nonce_inert_and_single_key (s : DidState) (owner : Nat)
    (name value : List Nat) (valid_for : Option Nat) (t b : Nat) :
    (create_attribute s owner name value valid_for t b).2.attributeNonce
      = s.attributeNonce
  ∧ (mutate_attribute s owner name value valid_for b).2.attributeNonce
      = s.attributeNonce
  ∧ (delete_attribute s owner name).2.attributeNonce = s.attributeNonce
  ∧ nonce_of s owner name = (lookupA s.attributeNonce (owner, name)).getD 0
  ∧ (derive_id owner name (nonce_of s owner name)).length = 32
  ∧ removeA (owner, derive_id owner name (nonce_of s owner name))
      (create_attribute s owner name value valid_for t b).2.attributeStore
      = removeA (owner, derive_id owner name (nonce_of s owner name))
          s.attributeStore
  ∧ removeA (owner, derive_id owner name (nonce_of s owner name))
      (mutate_attribute s owner name value valid_for b).2.attributeStore
      = removeA (owner, derive_id owner name (nonce_of s owner name))
          s.attributeStore
  ∧ removeA (owner, derive_id owner name (nonce_of s owner name))
      (delete_attribute s owner name).2.attributeStore
      = removeA (owner, derive_id owner name (nonce_of s owner name))
          s.attributeStore
  ∧ get_attribute s owner name
      = lookupA s.attributeStore
          (owner, derive_id owner name (nonce_of s owner name)) := by
  refine ⟨rfl, mutate_attribute_nonce_eq s owner name value valid_for b,
    delete_attribute_nonce_eq s owner name, rfl, ?_, ?_, ?_, ?_,
    get_attribute_eq_lookupA s owner name⟩
  · simp [derive_id, blake2_256]
  · rw [create_attribute_store_eq, removeA_insertA]
  · cases hg : get_attribute s owner name with
    | some a => simp [mutate_attribute, hg, removeA_insertA]
    | none => simp [mutate_attribute, hg]
  · by_cases h : containsA s.attributeStore
        (owner, derive_id owner name (nonce_of s owner name))
    · simp [delete_attribute, h, removeA_removeA]
    · simp [delete_attribute, h]

/-- C2: at current height `H`, `create_attribute` with `valid_for = Some h`
stores `validity = H + h` exactly (so `Some 0` stores `H` itself) and with
`valid_for = None` stores `u32::max_value()` — the maximum representable
height of the runtime's `u32` block-number type; `mutate_attribute`
computes the stored validity identically (shown on a state where the
record exists, seeded by an arbitrary preceding create). -/
theorem validity_arithmetic_create_mutate (s : DidState) (owner : Nat)
    (name value value2 : List Nat) (h H H2 t : Nat) (vf : Option Nat) :
    (lookupA (create_attribute s owner name value (some h) t H).2.attributeStore
        (owner, derive_id owner name (nonce_of s owner name))).map
        Attribute.validity = some (H + h)
  ∧ (lookupA (create_attribute s owner name value none t H).2.attributeStore
        (owner, derive_id owner name (nonce_of s owner name))).map
        Attribute.validity = some u32MaxValue
  ∧ (lookupA (mutate_attribute
        (create_attribute s owner name value vf t H).2 owner name value2
        (some h) H2).2.attributeStore
        (owner, derive_id owner name (nonce_of s owner name))).map
        Attribute.validity = some (H2 + h)
  ∧ (lookupA (mutate_attribute
        (create_attribute s owner name value vf t H).2 owner name value2
        none H2).2.attributeStore
        (owner, derive_id owner name (nonce_of s owner name))).map
        Attribute.validity = some u32MaxValue := by
  have hn : nonce_of (create_attribute s owner name value vf t H).2 owner name
      = nonce_of s owner name :=
    nonce_of_create s owner name value vf t H owner name
  have hg : get_attribute (create_attribute s owner name value vf t H).2
      owner name
      = some { name := name, value := value,
               validity := computeValidity vf H, created := t,
               nonce := nonce_of s owner name } := by
    rw [get_attribute_eq_lookupA, hn, create_attribute_store_eq,
      lookupA_insertA_self]
  refine ⟨?_, ?_, ?_, ?_⟩
  · rw [create_attribute_store_eq, lookupA_insertA_self]
    simp [computeValidity]
  · rw [create_attribute_store_eq, lookupA_insertA_self]
    simp [computeValidity]
  · simp [mutate_attribute, hg, hn, lookupA_insertA_self, computeValidity]
  · simp [mutate_attribute, hg, hn, lookupA_insertA_self, computeValidity]

/-- C3: two successive `create_attribute` calls for the same `(owner,
name)` (between which no operation advances the nonce counter — indeed
nothing ever does) both succeed, and leave exactly one record at the
derived key, carrying the second call's value, validity and timestamp:
the first record is silently overwritten, no error is raised. -/
theorem create_twice_overwrites (s : DidState) (owner : Nat)
    (name v1 v2 : List Nat) (vf1 vf2 : Option Nat) (t1 t2 b1 b2 : Nat) :
    (create_attribute s owner name v1 vf1 t1 b1).1 = Except.ok ()
  ∧ (create_attribute (create_attribute s owner name v1 vf1 t1 b1).2
      owner name v2 vf2 t2 b2).1 = Except.ok ()
  ∧ lookupA (create_attribute (create_attribute s owner name v1 vf1 t1 b1).2
        owner name v2 vf2 t2 b2).2.attributeStore
        (owner, derive_id owner name (nonce_of s owner name))
      = some { name := name, value := v2,
               validity := computeValidity vf2 b2, created := t2,
               nonce := nonce_of s owner name }
  ∧ countA (create_attribute (create_attribute s owner name v1 vf1 t1 b1).2
        owner name v2 vf2 t2 b2).2.attributeStore
        (owner, derive_id owner name (nonce_of s owner name)) = 1 := by
  have hn : nonce_of (create_attribute s owner name v1 vf1 t1 b1).2
      owner name = nonce_of s owner name :=
    nonce_of_create s owner name v1 vf1 t1 b1 owner name
  refine ⟨rfl, rfl, ?_, ?_⟩
  · rw [create_attribute_store_eq, hn, lookupA_insertA_self]
  · rw [create_attribute_store_eq, hn, countA_insertA_self]

/-- C4: after `create_attribute(O, "email", v, None)` succeeds, the lookup
`get_attribute(O, "email")` returns the record with `value = v`,
`name = "email"`, and `validity` equal to the maximum (u32) height. -/
theorem create_then_get_email (s : DidState) (owner : Nat) (v : List Nat)
    (t b : Nat) :
    get_attribute (create_attribute s owner emailName v none t b).2
        owner emailName
      = some { name := emailName, value := v, validity := u32MaxValue,
               created := t, nonce := nonce_of s owner emailName } := by
  have hn : nonce_of (create_attribute s owner emailName v none t b).2
      owner emailName = nonce_of s owner emailName :=
    nonce_of_create s owner emailName v none t b owner emailName
  rw [get_attribute_eq_lookupA, hn, create_attribute_store_eq,
    lookupA_insertA_self]
  simp [computeValidity]

/-- C5: on an existing record, `mutate_attribute` succeeds and replaces
only the `value` and `validity` fields, leaving `name`, `created` and
`nonce` exactly as they were, written back at the same derived key;
everything outside that key is untouched. -/
theorem mutate_preserves_identity_fields (s : DidState) (owner : Nat)
    (name v2 : List Nat) (vf : Option Nat) (b : Nat) (attr0 : Attribute)
    (h : get_attribute s owner name = some attr0) :
    (mutate_attribute s owner name v2 vf b).1 = Except.ok ()
  ∧ lookupA (mutate_attribute s owner name v2 vf b).2.attributeStore
        (owner, derive_id owner name (nonce_of s owner name))
      = some { name := attr0.name, value := v2,
               validity := computeValidity vf b,
               created := attr0.created, nonce := attr0.nonce }
  ∧ removeA (owner, derive_id owner name (nonce_of s owner name))
        (mutate_attribute s owner name v2 vf b).2.attributeStore
      = removeA (owner, derive_id owner name (nonce_of s owner name))
          s.attributeStore := by
  refine ⟨?_, ?_, ?_⟩
  · simp [mutate_attribute, h]
  · simp [mutate_attribute, h, lookupA_insertA_self]
  · simp [mutate_attribute, h, removeA_insertA]

/-- The empty initial state: both storage maps empty. -/
def emptyState : DidState := { attributeStore := [], attributeNonce := [] }

/-- A state holding one attribute record, created for owner 1 under the
name `[7]`. -/
def oneRecordState : DidState :=
  (create_attribute emptyState 1 [7] [8] none 3 4).2

/-- C5 witness: the mutate-preservation theorem instantiated on the
concrete one-record state. -/
theorem mutate_preserves_identity_fields_witness :
    (mutate_attribute oneRecordState 1 [7] [9] (some 10) 6).1
      = Except.ok ()
  ∧ lookupA (mutate_attribute oneRecordState 1 [7] [9]
        (some 10) 6).2.attributeStore
        (1, derive_id 1 [7] (nonce_of oneRecordState 1 [7]))
      = some { name := [7], value := [9],
               validity := computeValidity (some 10) 6,
               created := 3, nonce := 0 }
  ∧ removeA (1, derive_id 1 [7] (nonce_of oneRecordState 1 [7]))
        (mutate_attribute oneRecordState 1 [7] [9]
          (some 10) 6).2.attributeStore
      = removeA (1, derive_id 1 [7] (nonce_of oneRecordState 1 [7]))
          oneRecordState.attributeStore :=
  mutate_preserves_identity_fields oneRecordState 1 [7] [9] (some 10) 6
    { name := [7], value := [8], validity := u32MaxValue, created := 3,
      nonce := 0 }
    (by decide)

/-- C6: `mutate_attribute` and `delete_attribute` fail with `NotFound`
exactly when no record exists at the key derived for `(owner, name)`; and
every operation that fails leaves both storage maps exactly as they were
(`create_attribute` cannot fail at all, and the erroring paths of the
core operations and of the dispatchables return the input state
unchanged). -/
theorem notfound_iff_absent_no_partial_writes (s : DidState)
    (owner sender : Nat) (name value : List Nat) (vf : Option Nat)
    (t b : Nat) :
    ((mutate_attribute s owner name value vf b).1
        = Except.error DidError.NotFound
      ↔ lookupA s.attributeStore
          (owner, derive_id owner name (nonce_of s owner name)) = none)
  ∧ ((delete_attribute s owner name).1 = Except.error DidError.NotFound
      ↔ lookupA s.attributeStore
          (owner, derive_id owner name (nonce_of s owner name)) = none)
  ∧ ((mutate_attribute s owner name value vf b).1 = Except.ok ()
      ∨ mutate_attribute s owner name value vf b
          = (Except.error DidError.NotFound, s))
  ∧ ((delete_attribute s owner name).1 = Except.ok ()
      ∨ delete_attribute s owner name
          = (Except.error DidError.NotFound, s))
  ∧ (create_attribute s owner name value vf t b).1 = Except.ok ()
  ∧ ((add_attribute s sender name value vf t b).1 = Except.ok ()
      ∨ (add_attribute s sender name value vf t b).2 = s)
  ∧ ((update_attribute s sender name value vf b).1 = Except.ok ()
      ∨ (update_attribute s sender name value vf b).2 = s)
  ∧ (read_attribute s sender name).2 = s
  ∧ ((remove_attribute s sender name).1 = Except.ok ()
      ∨ (remove_attribute s sender name).2 = s) := by
  have hget := get_attribute_eq_lookupA s owner name
  refine ⟨?_, ?_, ?_, ?_, rfl, ?_, ?_, ?_, ?_⟩
  · cases hg : get_attribute s owner name with
    | some a => simp [mutate_attribute, hg, hget.symm.trans hg]
    | none => simp [mutate_attribute, hg, hget.symm.trans hg]
  · by_cases h : containsA s.attributeStore
        (owner, derive_id owner name (nonce_of s owner name))
    · have := (containsA_false_iff_lookupA_none s.attributeStore
        (owner, derive_id owner name (nonce_of s owner name)))
      simp [delete_attribute, h] at *
      simp [this]
    · have := (containsA_false_iff_lookupA_none s.attributeStore
        (owner, derive_id owner name (nonce_of s owner name))).mp
        (by simp [h])
      simp [delete_attribute, h, this]
  · cases hg : get_attribute s owner name with
    | some a => exact Or.inl (by simp [mutate_attribute, hg])
    | none => exact Or.inr (by simp [mutate_attribute, hg])
  · by_cases h : containsA s.attributeStore
        (owner, derive_id owner name (nonce_of s owner name))
    · exact Or.inl (by simp [delete_attribute, h])
    · exact Or.inr (by simp [delete_attribute, h])
  · by_cases hl : name.length ≤ 64
    · exact Or.inl (by simp [add_attribute, hl, create_attribute])
    · exact Or.inr (by simp [add_attribute, hl])
  · by_cases hl : name.length ≤ 64
    · cases hg : get_attribute s sender name with
      | some a => exact Or.inl (by simp [update_attribute, hl,
          mutate_attribute, hg])
      | none => exact Or.inr (by simp [update_attribute, hl,
          mutate_attribute, hg])
    · exact Or.inr (by simp [update_attribute, hl])
  · cases hg : get_attribute s sender name with
    | some a => simp [read_attribute, hg]
    | none => simp [read_attribute, hg]
  · by_cases hl : name.length ≤ 64
    · by_cases h : containsA s.attributeStore
          (sender, derive_id sender name (nonce_of s sender name))
      · exact Or.inl (by simp [remove_attribute, hl, delete_attribute, h])
      · exact Or.inr (by simp [remove_attribute, hl, delete_attribute, h])
    · exact Or.inr (by simp [remove_attribute, hl])

theorem delete_attribute_absent (s : DidState) (owner : Nat)
    (name : List Nat)
    (h : containsA s.attributeStore
      (owner, derive_id owner name (nonce_of s owner name)) = false) :
    delete_attribute s owner name = (Except.error DidError.NotFound, s) := by
  simp [delete_attribute, h]

theorem delete_attribute_store_eq (s : DidState) (owner : Nat)
    (name : List Nat)
    (h : containsA s.attributeStore
      (owner, derive_id owner name (nonce_of s owner name)) = true) :
    (delete_attribute s owner name).2.attributeStore
      = removeA (owner, derive_id owner name (nonce_of s owner name))
          s.attributeStore := by
  simp [delete_attribute, h]

/-- C7: after `create_attribute(O, "email", v, vf)`, a first
`delete_attribute(O, "email")` succeeds, after which
`get_attribute(O, "email")` returns absent and a second
`delete_attribute(O, "email")` fails with `NotFound`. -/
theorem create_delete_get_delete (s : DidState) (owner : Nat)
    (v : List Nat) (vf : Option Nat) (t b : Nat) :
    (delete_attribute (create_attribute s owner emailName v vf t b).2
        owner emailName).1 = Except.ok ()
  ∧ get_attribute (delete_attribute
        (create_attribute s owner emailName v vf t b).2
        owner emailName).2 owner emailName = none
  ∧ (delete_attribute (delete_attribute
        (create_attribute s owner emailName v vf t b).2
        owner emailName).2 owner emailName).1
      = Except.error DidError.NotFound := by
  set s1 := (create_attribute s owner emailName v vf t b).2 with hs1
  have hn1 : nonce_of s1 owner emailName = nonce_of s owner emailName := by
    rw [hs1]
    exact nonce_of_create s owner emailName v vf t b owner emailName
  have hc1 : containsA s1.attributeStore
      (owner, derive_id owner emailName (nonce_of s1 owner emailName))
      = true := by
    rw [hn1, hs1, create_attribute_store_eq]
    simp [containsA, lookupA_insertA_self]
  have hn2 : nonce_of (delete_attribute s1 owner emailName).2 owner emailName
      = nonce_of s owner emailName := by
    rw [nonce_of_delete, hn1]
  refine ⟨?_, ?_, ?_⟩
  · simp [delete_attribute, hc1]
  · rw [get_attribute_eq_lookupA, hn2,
      delete_attribute_store_eq s1 owner emailName hc1, hn1]
    exact lookupA_removeA_self _ _
  · have hc2 : containsA (delete_attribute s1 owner emailName).2.attributeStore
        (owner, derive_id owner emailName
          (nonce_of (delete_attribute s1 owner emailName).2 owner emailName))
        = false := by
      rw [hn2, delete_attribute_store_eq s1 owner emailName hc1, hn1]
      simp [containsA, lookupA_removeA_self]
    rw [delete_attribute_absent _ _ _ hc2]

/-- C8: the `AlreadyExist` error is never surfaced: `create_attribute`
returns `Ok` on every input (its only write is an unconditional insert,
with no existence check), and every other operation's outcome is
exhaustively one of `Ok`, `NotFound` or the name-length error — never
`AlreadyExist`. -/
theorem no_already_exist_surfaced (s : DidState) (owner sender : Nat)
    (name value : List Nat) (vf : Option Nat) (t b : Nat) :
    (create_attribute s owner name value vf t b).1 = Except.ok ()
  ∧ ((mutate_attribute s owner name value vf b).1 = Except.ok ()
      ∨ (mutate_attribute s owner name value vf b).1
          = Except.error DidError.NotFound)
  ∧ ((delete_attribute s owner name).1 = Except.ok ()
      ∨ (delete_attribute s owner name).1
          = Except.error DidError.NotFound)
  ∧ ((add_attribute s sender name value vf t b).1 = Except.ok ()
      ∨ (add_attribute s sender name value vf t b).1
          = Except.error PalletError.AttributeNameExceedMax64)
  ∧ ((update_attribute s sender name value vf b).1 = Except.ok ()
      ∨ (update_attribute s sender name value vf b).1
          = Except.error PalletError.AttributeNameExceedMax64
      ∨ (update_attribute s sender name value vf b).1
          = Except.error PalletError.AttributeNotFound)
  ∧ ((read_attribute s sender name).1 = Except.ok ()
      ∨ (read_attribute s sender name).1
          = Except.error PalletError.AttributeNotFound)
  ∧ ((remove_attribute s sender name).1 = Except.ok ()
      ∨ (remove_attribute s sender name).1
          = Except.error PalletError.AttributeNameExceedMax64
      ∨ (remove_attribute s sender name).1
          = Except.error PalletError.AttributeNotFound) := by
  refine ⟨rfl, ?_, ?_, ?_, ?_, ?_, ?_⟩
  · cases hg : get_attribute s owner name with
    | some a => exact Or.inl (by simp [mutate_attribute, hg])
    | none => exact Or.inr (by simp [mutate_attribute, hg])
  · by_cases h : containsA s.attributeStore
        (owner, derive_id owner name (nonce_of s owner name))
    · exact Or.inl (by simp [delete_attribute, h])
    · exact Or.inr (by simp [delete_attribute, h])
  · by_cases hl : name.length ≤ 64
    · exact Or.inl (by simp [add_attribute, hl, create_attribute])
    · exact Or.inr (by simp [add_attribute, hl])
  · by_cases hl : name.length ≤ 64
    · cases hg : get_attribute s sender name with
      | some a => exact Or.inl (by simp [update_attribute, hl,
          mutate_attribute, hg])
      | none => exact Or.inr (Or.inr (by simp [update_attribute, hl,
          mutate_attribute, hg, dispatch_error]))
    · exact Or.inr (Or.inl (by simp [update_attribute, hl]))
  · cases hg : get_attribute s sender name with
    | some a => exact Or.inl (by simp [read_attribute, hg])
    | none => exact Or.inr (by simp [read_attribute, hg])
  · by_cases hl : name.length ≤ 64
    · by_cases h : containsA s.attributeStore
          (sender, derive_id sender name (nonce_of s sender name))
      · exact Or.inl (by simp [remove_attribute, hl, delete_attribute, h])
      · exact Or.inr (Or.inr (by simp [remove_attribute, hl,
          delete_attribute, h, dispatch_error]))
    · exact Or.inr (Or.inl (by simp [remove_attribute, hl]))

/-- A 65-byte attribute name: 65 repetitions of byte 97. -/
def longName : List Nat := List.replicate 65 97

/-- A state holding a record for owner 1 under the 65-byte name, written
through the core (which itself imposes no length bound). -/
def longNameState : DidState :=
  (create_attribute emptyState 1 longName [5] none 2 3).2

set_option maxRecDepth 100000 in
/-- C9 counterexample: called with a 65-byte name, `read_attribute` is NOT
rejected with the name-length error — it runs the core lookup and store
access: on a state holding a record under that name it returns `Ok`, and
on the empty state it returns `AttributeNotFound`; in neither case does
it return `AttributeNameExceedMax64`, refuting the claim for the
`read_attribute` dispatchable. -/
theorem read_attribute_skips_length_check :
    longName.length = 65
  ∧ read_attribute longNameState 1 longName
      = (Except.ok (), longNameState)
  ∧ (read_attribute emptyState 1 longName).1
      = Except.error PalletError.AttributeNotFound :=
  ⟨rfl, rfl, rfl⟩

/-- C9 amended: `add_attribute`, `update_attribute` and `remove_attribute`
reject a name longer than 64 bytes with `AttributeNameExceedMax64` before
any core logic or store access runs (result is the error and the state is
returned unchanged); `read_attribute`, however, performs no length check:
it proceeds to the store lookup for any name, never mutates state, and
fails with `AttributeNotFound` exactly when no record exists at the
derived key. -/
theorem name_length_boundary (s : DidState) (sender : Nat)
    (name value : List Nat) (vf : Option Nat) (t b : Nat)
    (h : 64 < name.length) :
    add_attribute s sender name value vf t b
      = (Except.error PalletError.AttributeNameExceedMax64, s)
  ∧ update_attribute s sender name value vf b
      = (Except.error PalletError.AttributeNameExceedMax64, s)
  ∧ remove_attribute s sender name
      = (Except.error PalletError.AttributeNameExceedMax64, s)
  ∧ (read_attribute s sender name).2 = s
  ∧ ((read_attribute s sender name).1
        = Except.error PalletError.AttributeNotFound
      ↔ lookupA s.attributeStore
          (sender, derive_id sender name (nonce_of s sender name))
          = none) := by
  have hl : ¬ name.length ≤ 64 := by omega
  have hget := get_attribute_eq_lookupA s sender name
  refine ⟨by simp [add_attribute, hl], by simp [update_attribute, hl],
    by simp [remove_attribute, hl], ?_, ?_⟩
  · cases hg : get_attribute s sender name <;> simp [read_attribute, hg]
  · cases hg : get_attribute s sender name with
    | some a => simp [read_attribute, hg, hget.symm.trans hg]
    | none => simp [read_attribute, hg, hget.symm.trans hg]

/-- C9 witness: the amended boundary theorem instantiated at the concrete
65-byte name on the empty state. -/
theorem name_length_boundary_witness :
    add_attribute emptyState 1 longName [5] none 2 3
      = (Except.error PalletError.AttributeNameExceedMax64, emptyState)
  ∧ update_attribute emptyState 1 longName [5] none 3
      = (Except.error PalletError.AttributeNameExceedMax64, emptyState)
  ∧ remove_attribute emptyState 1 longName
      = (Except.error PalletError.AttributeNameExceedMax64, emptyState)
  ∧ (read_attribute emptyState 1 longName).2 = emptyState
  ∧ ((read_attribute emptyState 1 longName).1
        = Except.error PalletError.AttributeNotFound
      ↔ lookupA emptyState.attributeStore
          (1, derive_id 1 longName (nonce_of emptyState 1 longName))
          = none) :=
  name_length_boundary emptyState 1 longName [5] none 2 3 (by decide)

end PeaqDid
